import Mathlib

/-!
Verification development for icycat, a program that relays an ICY/SHOUTcast
audio stream into a file, pipe, or MPEG-TS multiplexed packet sink.

The definitions below are a shallow embedding of src/icycat.go and
src/triggerwriter.go; each definition's doc comment names the source lines
it embeds.  Byte slices are lists of naturals, Go ints are Lean Int or Nat,
fallible operations return Option, and the concurrent loops are embedded as
explicit trace-producing functions or labelled step relations.
-/

namespace Icycat

/-- Byte slices are modelled as lists of natural numbers. -/
abbrev Bytes := List Nat

/-! ## triggerWriter (src/triggerwriter.go)

The Go struct holds a sync.Once, a channel ch, and the wrapped io.WriteCloser w.
`resolved` models whether ch has been closed, i.e. whether the once already
fired; `innerWritten` records the byte slices forwarded to w, and
`innerCloseCount` counts the calls of w.Close. -/

/-- State of a triggerWriter (src/triggerwriter.go lines 8-13). -/
structure TWState where
  resolved : Bool
  innerWritten : List Bytes
  innerCloseCount : Nat
deriving DecidableEq

/-- Initial state built by newTriggerWriter (src/triggerwriter.go lines 15-20):
a fresh, still-open channel, and nothing forwarded to the wrapped writer yet. -/
def initTW : TWState :=
  { resolved := false, innerWritten := [], innerCloseCount := 0 }

/-- Observable events of a triggerWriter call: `trigger` is close(w.ch)
(src/triggerwriter.go line 27), the other two are the underlying I/O calls
on the wrapped writer. -/
inductive TWEvent where
  | trigger
  | innerWrite (b : Bytes)
  | innerClose
deriving DecidableEq

/-- Models w.once.Do(w.trigger) (src/triggerwriter.go lines 31 and 37): the
trigger runs exactly on the first call; the Bool reports whether it ran. -/
def onceDo (s : TWState) : TWState × Bool :=
  if s.resolved then (s, false) else ({ s with resolved := true }, true)

/-- Models triggerWriter.Write (src/triggerwriter.go lines 30-34): resolve the
gate via the once, then forward exactly b to the wrapped writer and return the
wrapped writer's result.  `wres` is the oracle giving the wrapped writer's
(n, err) return value for a given slice. -/
def triggerWriter.write (wres : Bytes → Nat × Option String) (s : TWState) (b : Bytes) :
    TWState × List TWEvent × (Nat × Option String) :=
  let p := onceDo s
  let s2 := { p.1 with innerWritten := p.1.innerWritten ++ [b] }
  (s2, (if p.2 then [TWEvent.trigger] else []) ++ [TWEvent.innerWrite b], wres b)

/-- Models triggerWriter.Close (src/triggerwriter.go lines 36-40): resolve the
gate via the once, then call the wrapped writer's Close and return its error
`cres`. -/
def triggerWriter.close (cres : Option String) (s : TWState) :
    TWState × List TWEvent × Option String :=
  let p := onceDo s
  let s2 := { p.1 with innerCloseCount := p.1.innerCloseCount + 1 }
  (s2, (if p.2 then [TWEvent.trigger] else []) ++ [TWEvent.innerClose], cres)

/-- A call issued against a triggerWriter. -/
inductive TWOp where
  | write (b : Bytes)
  | close
deriving DecidableEq

/-- One call against the triggerWriter, dropping the returned value and
keeping the state transition and the emitted events. -/
def twStep (wres : Bytes → Nat × Option String) (cres : Option String) (s : TWState) :
    TWOp → TWState × List TWEvent
  | TWOp.write b => ((triggerWriter.write wres s b).1, (triggerWriter.write wres s b).2.1)
  | TWOp.close => ((triggerWriter.close cres s).1, (triggerWriter.close cres s).2.1)

/-- Runs a sequence of calls against a triggerWriter, accumulating the event
trace.  A sequence of concurrent callers is modelled by the serialization the
sync.Once and the Go memory model impose on the once/trigger pair. -/
def twRun (wres : Bytes → Nat × Option String) (cres : Option String) :
    TWState → List TWOp → TWState × List TWEvent
  | s, [] => (s, [])
  | s, op :: ops =>
    let p := twStep wres cres s op
    let q := twRun wres cres p.1 ops
    (q.1, p.2 ++ q.2)

theorem twStep_of_resolved (wres : Bytes → Nat × Option String) (cres : Option String)
    (s : TWState) (op : TWOp) (h : s.resolved = true) :
    (twStep wres cres s op).1.resolved = true ∧
      (twStep wres cres s op).2.count TWEvent.trigger = 0 := by
  cases op <;>
    simp [twStep, triggerWriter.write, triggerWriter.close, onceDo, h]

theorem twRun_of_resolved (wres : Bytes → Nat × Option String) (cres : Option String)
    (ops : List TWOp) : ∀ s : TWState, s.resolved = true →
    (twRun wres cres s ops).2.count TWEvent.trigger = 0 := by
  induction ops with
  | nil => intro s _; simp [twRun]
  | cons op ops ih =>
    intro s h
    have hs := twStep_of_resolved wres cres s op h
    simp only [twRun, List.count_append]
    rw [hs.2, ih _ hs.1]

/-- Claim C1: a triggerWriter gate resolves exactly once.  For any sequence of
Write and Close calls the trigger channel is closed exactly once when the
sequence is nonempty; resolution is the very first event, so it happens before
the first call's underlying I/O completes; and a gate that never receives a
call never resolves. -/
theorem trigger_gate_resolves_once (wres : Bytes → Nat × Option String)
    (cres : Option String) (ops : List TWOp) :
    ((twRun wres cres initTW ops).2.count TWEvent.trigger = if ops = [] then 0 else 1) ∧
      (ops ≠ [] → (twRun wres cres initTW ops).2.head? = some TWEvent.trigger) ∧
      (twRun wres cres initTW []).1.resolved = false := by
  refine ⟨?_, ?_, by simp [twRun, initTW]⟩
  · cases ops with
    | nil => simp [twRun]
    | cons op rest =>
      have h1 : (twStep wres cres initTW op).1.resolved = true ∧
          (twStep wres cres initTW op).2.count TWEvent.trigger = 1 := by
        cases op <;>
          simp [twStep, triggerWriter.write, triggerWriter.close, onceDo, initTW]
      simp only [twRun, List.count_append]
      rw [h1.2, twRun_of_resolved wres cres rest _ h1.1]
      simp
  · intro h
    cases ops with
    | nil => exact absurd rfl h
    | cons op rest =>
      have h2 : (twStep wres cres initTW op).2.head? = some TWEvent.trigger := by
        cases op <;>
          simp [twStep, triggerWriter.write, triggerWriter.close, onceDo, initTW]
      cases hev : (twStep wres cres initTW op).2 with
      | nil => rw [hev] at h2; simp at h2
      | cons e tl =>
        rw [hev] at h2
        simp only [List.head?] at h2
        simp only [twRun, hev]
        simpa using h2

/-- Witness for claim C1 at a concrete input: two calls, one trigger, trigger
first. -/
theorem trigger_gate_resolves_once_witness :
    ((twRun (fun b => (b.length, none)) none initTW [TWOp.write [3], TWOp.close]).2.count
        TWEvent.trigger = 1) ∧
      (twRun (fun b => (b.length, none)) none initTW [TWOp.write [3], TWOp.close]).2.head? =
        some TWEvent.trigger := by
  have h := trigger_gate_resolves_once (fun b => (b.length, none)) none
    [TWOp.write [3], TWOp.close]
  exact ⟨by simpa using h.1, h.2.1 (by simp)⟩

/-- Claim C10: the triggerWriter is a pure pass-through.  Write forwards
exactly b to the wrapped writer and returns exactly the wrapped writer's
(n, err); Close returns exactly the wrapped writer's Close error; beyond
resolving the gate, neither call has any other effect on the state. -/
theorem trigger_writer_passthrough (wres : Bytes → Nat × Option String)
    (cres : Option String) (s : TWState) (b : Bytes) :
    (triggerWriter.write wres s b).2.2 = wres b ∧
      (triggerWriter.write wres s b).1.innerWritten = s.innerWritten ++ [b] ∧
      (triggerWriter.write wres s b).1.innerCloseCount = s.innerCloseCount ∧
      (triggerWriter.write wres s b).1.resolved = true ∧
      (triggerWriter.close cres s).2.2 = cres ∧
      (triggerWriter.close cres s).1.innerCloseCount = s.innerCloseCount + 1 ∧
      (triggerWriter.close cres s).1.innerWritten = s.innerWritten ∧
      (triggerWriter.close cres s).1.resolved = true := by
  cases h : s.resolved <;>
    simp [triggerWriter.write, triggerWriter.close, onceDo, h]

/-! ## Packet-size normalization (src/icycat.go, openOutput) -/

/-- Value ts.PacketSize of the mpegts library, used at src/icycat.go
lines 150-154: 188 bytes, the MPEG-TS packet size. -/
def tsPacketSize : Int := 188

/-- Requested packet size selected by openOutput (src/icycat.go lines 134-147):
the parsed pkt_size query parameter of the udp destination when present,
otherwise the configured default Flags.PacketSize. -/
def requestedPktSize (urlPktSize : Option Int) (flagPacketSize : Int) : Int :=
  match urlPktSize with
  | some sz => sz
  | none => flagPacketSize

/-- Packet size injected back into a udp destination's query parameters by
openOutput (src/icycat.go lines 134-157).  Go's % on int is the truncated
remainder, modelled by Int.tmod. -/
def injectedPktSize (urlPktSize : Option Int) (flagPacketSize : Int) : Int :=
  let pktSize := requestedPktSize urlPktSize flagPacketSize
  let pktSize := pktSize - Int.tmod pktSize tsPacketSize
  if pktSize ≤ 0 then tsPacketSize else pktSize

/-- Specification-side definition for claim C2, following the spec's words:
normalized = requested − (requested mod 188); if normalized ≤ 0 it is set
to 188.  The spec's mod is read as the mathematical (Euclidean) remainder. -/
def specNormalizedPktSize (requested : Int) : Int :=
  let normalized := requested - requested % 188
  if normalized ≤ 0 then 188 else normalized

theorem injected_eq_specNormalized (urlPktSize : Option Int) (flagPacketSize : Int) :
    injectedPktSize urlPktSize flagPacketSize =
      specNormalizedPktSize (requestedPktSize urlPktSize flagPacketSize) := by
  set a := requestedPktSize urlPktSize flagPacketSize with ha
  rcases le_or_lt 0 a with h | h
  · have hm : Int.tmod a 188 = a % 188 := Int.tmod_eq_emod h (by norm_num)
    simp only [injectedPktSize, specNormalizedPktSize, tsPacketSize, ← ha, hm]
  · have hd : Int.tmod a 188 = a - 188 * a.tdiv 188 := Int.tmod_def a 188
    have h1 : (0:Int) ≤ (-a).tdiv 188 := Int.tdiv_nonneg (by omega) (by norm_num)
    have h2 : (-a).tdiv 188 = -(a.tdiv 188) := Int.neg_tdiv a 188
    have hcode : a - Int.tmod a 188 ≤ 0 := by omega
    have hspec : a - a % 188 ≤ 0 := by omega
    simp only [injectedPktSize, specNormalizedPktSize, tsPacketSize, ← ha]
    rw [if_pos hcode, if_pos hspec]

/-- Claim C2: for a packet-oriented (udp) destination the injected packet size
is requested − (requested mod 188), where requested is the explicit pkt_size
query parameter if present, else the configured default, bumped to 188 when
the result is not positive; with the concrete values 1500 ↦ 1316, 1316 ↦ 1316,
189 ↦ 188, 187 ↦ 188, 0 ↦ 188, 376 ↦ 376. -/
theorem packet_size_normalization :
    (∀ (urlPktSize : Option Int) (flagPacketSize : Int),
        injectedPktSize urlPktSize flagPacketSize =
          specNormalizedPktSize (requestedPktSize urlPktSize flagPacketSize)) ∧
      injectedPktSize (some 1500) 1316 = 1316 ∧
      injectedPktSize (some 1316) 1316 = 1316 ∧
      injectedPktSize (some 189) 1316 = 188 ∧
      injectedPktSize (some 187) 1316 = 188 ∧
      injectedPktSize (some 0) 1316 = 188 ∧
      injectedPktSize (some 376) 1316 = 376 ∧
      injectedPktSize none 1500 = 1316 := by
  refine ⟨injected_eq_specNormalized, ?_, ?_, ?_, ?_, ?_, ?_, ?_⟩ <;> decide

/-! ## SourceReader (ICECASTReader, src/icycat.go lines 264-359)

The reconnect loop is embedded as a trace-producing function over a script:
the first open attempt and a list of subsequent reopen attempts, each either
failing (`none`) or yielding a connection described by the chunks files.Copy
forwards from it.  The script's end models external cancellation observed at
the select of lines 345-349. -/

/-- A successfully opened source connection: the byte chunks files.Copy
forwards from it into the handoff pipe (src/icycat.go line 327), and whether
the copy or the close ended with an error (lines 327-339). -/
structure ConnSpec where
  chunks : List Bytes
  copyErr : Bool
deriving DecidableEq

/-- Observable events of the SourceReader.  `discontinuity` is the notifier
call at line 267; `openOK`/`openFail` is the files.Open outcome at line 278;
`metadata` is the once-only service-metadata derivation of lines 295-308;
`forward conn b` is chunk b of connection `conn` entering the handoff pipe;
`closeSource` is f.Close at line 330; `logError` a glog error line;
`throttleWait` the select on the floor timer at lines 345-349; `fatalExit`
the glog.Fatalf of main at line 455 when ICECASTReader returns an error;
`panicExit` the runtime panic that terminates the process when the iteration
after a failed reopen dereferences the nil source handle (the copy call at
line 327 and the unconditional f.Close() at line 330 are method calls through
a nil interface value). -/
inductive SREvent where
  | discontinuity
  | openOK
  | openFail
  | metadata
  | forward (conn : Nat) (b : Bytes)
  | closeSource
  | logError
  | throttleWait
  | fatalExit
  | panicExit
deriving DecidableEq

/-- Models reopen (src/icycat.go lines 266-288): the discontinuity notifier is
invoked first, then files.Open is attempted. -/
def reopenEvents (spec : Option ConnSpec) : List SREvent :=
  SREvent.discontinuity ::
    (match spec with
     | none => [SREvent.openFail]
     | some _ => [SREvent.openOK])

/-- Models one pass of the copy portion of the goroutine body (src/icycat.go
lines 320-343) for the current handle `cur` of open attempt number `i`:
forward the connection's chunks, close the handle, log any copy error.  When
the preceding reopen failed (`cur = none`) the handle f is the nil
files.Reader interface, and the iteration panics: files.Copy(ctx, pipe, f) at
line 327 and, in any case, the unconditional f.Close() at line 330 call
methods through the nil interface, which is a Go runtime panic that kills the
whole process — before the throttle select and before any further reopen. -/
def iterEvents (i : Nat) (cur : Option ConnSpec) : List SREvent :=
  match cur with
  | some c =>
    c.chunks.map (SREvent.forward i) ++ [SREvent.closeSource] ++
      (if c.copyErr then [SREvent.logError] else [])
  | none => [SREvent.panicExit]

/-- Models one full iteration of the goroutine loop (src/icycat.go lines
319-355): copy from the current handle, wait out the floor timer, reopen
(spec), and log a failed reopen (lines 352-354). -/
def iterStep (i : Nat) (cur spec : Option ConnSpec) : List SREvent :=
  iterEvents i cur ++ [SREvent.throttleWait] ++ reopenEvents spec ++
    (if spec.isNone then [SREvent.logError] else [])

/-- Models the goroutine loop of src/icycat.go lines 316-356, starting with
current handle `cur` from open attempt `i`, over the remaining reopen script.
An empty script means cancellation is observed at the select, so the final
iteration copies and returns without reopening.  When `cur = none` the
iteration panics in its copy portion (see iterEvents), so the trace ends
there and none of the scripted reopens happens. -/
def loopRun (i : Nat) (cur : Option ConnSpec) : List (Option ConnSpec) → List SREvent
  | [] => iterEvents i cur
  | spec :: rest =>
    match cur with
    | none => iterEvents i none
    | some c => iterStep i (some c) spec ++ loopRun (i + 1) spec rest

/-- Models ICECASTReader together with main's handling of its result
(src/icycat.go lines 264-359 and 453-456): the first reopen happens before the
goroutine starts; if it fails ICECASTReader returns the error and main calls
glog.Fatalf (event fatalExit); on success the service metadata is derived once
(lines 295-308) and the goroutine loop runs. -/
def sourceReaderRun (first : Option ConnSpec) (rest : List (Option ConnSpec)) :
    List SREvent :=
  reopenEvents first ++
    match first with
    | none => [SREvent.fatalExit]
    | some c => SREvent.metadata :: loopRun 0 (some c) rest

theorem iter_count_eq_zero (i : Nat) (cur : Option ConnSpec) {e : SREvent}
    (h1 : ∀ k b, SREvent.forward k b ≠ e) (h2 : SREvent.closeSource ≠ e)
    (h3 : SREvent.logError ≠ e) (h4 : SREvent.panicExit ≠ e) :
    (iterEvents i cur).count e = 0 := by
  cases cur with
  | none => simp [iterEvents, List.count_cons, h4]
  | some c =>
    have hmap : (c.chunks.map (SREvent.forward i)).count e = 0 := by
      rw [List.count_eq_zero]
      intro hmem
      rcases List.mem_map.mp hmem with ⟨b, _, hb⟩
      exact h1 i b hb
    cases hc : c.copyErr <;>
      simp [iterEvents, hc, List.count_append, hmap, List.count_cons, h2, h3]

theorem iterStep_count_disc (i : Nat) (cur spec : Option ConnSpec) :
    (iterStep i cur spec).count SREvent.discontinuity = 1 := by
  have h0 := iter_count_eq_zero i cur (e := SREvent.discontinuity)
    (fun k b => by simp) (by simp) (by simp) (by simp)
  cases spec <;>
    simp [iterStep, reopenEvents, List.count_append, List.count_cons, h0]

theorem iterStep_count_open (i : Nat) (cur spec : Option ConnSpec) :
    (iterStep i cur spec).count SREvent.openOK +
      (iterStep i cur spec).count SREvent.openFail = 1 := by
  have h0 := iter_count_eq_zero i cur (e := SREvent.openOK)
    (fun k b => by simp) (by simp) (by simp) (by simp)
  have h1 := iter_count_eq_zero i cur (e := SREvent.openFail)
    (fun k b => by simp) (by simp) (by simp) (by simp)
  cases spec <;>
    simp [iterStep, reopenEvents, List.count_append, List.count_cons, h0, h1]

theorem iterStep_count_metadata (i : Nat) (cur spec : Option ConnSpec) :
    (iterStep i cur spec).count SREvent.metadata = 0 := by
  have h0 := iter_count_eq_zero i cur (e := SREvent.metadata)
    (fun k b => by simp) (by simp) (by simp) (by simp)
  cases spec <;>
    simp [iterStep, reopenEvents, List.count_append, List.count_cons, h0]

theorem loopRun_count_disc_eq_open (rest : List (Option ConnSpec)) :
    ∀ (i : Nat) (cur : Option ConnSpec),
      (loopRun i cur rest).count SREvent.discontinuity =
        (loopRun i cur rest).count SREvent.openOK +
          (loopRun i cur rest).count SREvent.openFail := by
  induction rest with
  | nil =>
    intro i cur
    have h0 := iter_count_eq_zero i cur (e := SREvent.discontinuity)
      (fun k b => by simp) (by simp) (by simp) (by simp)
    have h1 := iter_count_eq_zero i cur (e := SREvent.openOK)
      (fun k b => by simp) (by simp) (by simp) (by simp)
    have h2 := iter_count_eq_zero i cur (e := SREvent.openFail)
      (fun k b => by simp) (by simp) (by simp) (by simp)
    simp [loopRun, h0, h1, h2]
  | cons spec rest ih =>
    intro i cur
    cases cur with
    | none => simp [loopRun, iterEvents]
    | some c =>
      have hd := iterStep_count_disc i (some c) spec
      have ho := iterStep_count_open i (some c) spec
      have hr := ih (i + 1) spec
      simp only [loopRun, List.count_append]
      omega

theorem loopRun_count_metadata (rest : List (Option ConnSpec)) :
    ∀ (i : Nat) (cur : Option ConnSpec),
      (loopRun i cur rest).count SREvent.metadata = 0 := by
  induction rest with
  | nil =>
    intro i cur
    simpa [loopRun] using iter_count_eq_zero i cur (e := SREvent.metadata)
      (fun k b => by simp) (by simp) (by simp) (by simp)
  | cons spec rest ih =>
    intro i cur
    cases cur with
    | none => simp [loopRun, iterEvents]
    | some c =>
      simp [loopRun, List.count_append, iterStep_count_metadata, ih]

theorem forward_mem_iterEvents {i : Nat} {cur : Option ConnSpec} {k : Nat} {b : Bytes}
    (h : SREvent.forward k b ∈ iterEvents i cur) : k = i := by
  cases cur with
  | none => simp [iterEvents] at h
  | some c =>
    cases hc : c.copyErr <;>
      simp [iterEvents, hc, List.mem_append, List.mem_map] at h <;>
      tauto

theorem forward_mem_iterStep {i : Nat} {cur spec : Option ConnSpec} {k : Nat} {b : Bytes}
    (h : SREvent.forward k b ∈ iterStep i cur spec) : k = i := by
  simp only [iterStep, List.mem_append] at h
  rcases h with ((h | h) | h) | h
  · exact forward_mem_iterEvents h
  · simp at h
  · cases spec <;> simp [reopenEvents] at h
  · cases spec <;> simp at h

theorem loopRun_forward_le (rest : List (Option ConnSpec)) :
    ∀ (i : Nat) (cur : Option ConnSpec) (j k : Nat) (b : Bytes),
      (loopRun i cur rest)[j]? = some (SREvent.forward k b) →
        k ≤ i + ((loopRun i cur rest).take j).count SREvent.discontinuity := by
  induction rest with
  | nil =>
    intro i cur j k b h
    have hm : SREvent.forward k b ∈ iterEvents i cur := List.getElem?_mem h
    have := forward_mem_iterEvents hm
    omega
  | cons spec rest ih =>
    intro i cur j k b h
    cases cur with
    | none =>
      have hm : SREvent.forward k b ∈ iterEvents i none := List.getElem?_mem h
      simp [iterEvents] at hm
    | some c =>
      have heq : loopRun i (some c) (spec :: rest) =
          iterStep i (some c) spec ++ loopRun (i + 1) spec rest := rfl
      by_cases hj : j < (iterStep i (some c) spec).length
      · rw [heq, List.getElem?_append_left hj] at h
        have := forward_mem_iterStep (List.getElem?_mem h)
        omega
      · push_neg at hj
        rw [heq, List.getElem?_append_right hj] at h
        have hk := ih (i + 1) spec (j - (iterStep i (some c) spec).length) k b h
        rw [heq, List.take_append_eq_append_take, List.take_of_length_le hj,
          List.count_append, iterStep_count_disc]
        omega

/-- Claim C3: the discontinuity notification is invoked exactly once per open
attempt of the source (unconditionally, including the first open), and each
byte chunk forwarded downstream from connection k is preceded in the trace by
at least k + 1 discontinuity notifications, i.e. by that connection's own
notification (connection k's notification is the (k+1)-st one). -/
theorem discontinuity_per_reopen (first : Option ConnSpec)
    (rest : List (Option ConnSpec)) :
    ((sourceReaderRun first rest).count SREvent.discontinuity =
        (sourceReaderRun first rest).count SREvent.openOK +
          (sourceReaderRun first rest).count SREvent.openFail) ∧
      ∀ (j k : Nat) (b : Bytes),
        (sourceReaderRun first rest)[j]? = some (SREvent.forward k b) →
          k + 1 ≤ ((sourceReaderRun first rest).take j).count SREvent.discontinuity := by
  cases first with
  | none =>
    have heq : sourceReaderRun none rest =
        [SREvent.discontinuity, SREvent.openFail, SREvent.fatalExit] := rfl
    constructor
    · rw [heq]; decide
    · intro j k b h
      rw [heq] at h
      have := List.getElem?_mem h
      simp at this
  | some c =>
    have heq : sourceReaderRun (some c) rest =
        SREvent.discontinuity :: SREvent.openOK :: SREvent.metadata ::
          loopRun 0 (some c) rest := rfl
    constructor
    · rw [heq]
      have h1 := loopRun_count_disc_eq_open rest 0 (some c)
      simp only [List.count_cons]
      simp
      omega
    · intro j k b h
      rw [heq] at h ⊢
      match j with
      | 0 => simp at h
      | 1 => simp at h
      | 2 => simp at h
      | (j' + 3) =>
        simp only [List.getElem?_cons_succ] at h
        have hk := loopRun_forward_le rest 0 (some c) j' k b h
        simp only [List.take_succ_cons, List.count_cons]
        simp
        omega

/-- Witness for claim C3 at a concrete input: one successful open forwarding
one chunk; its forward event at position 3 is preceded by one notification. -/
theorem discontinuity_per_reopen_witness :
    0 + 1 ≤ ((sourceReaderRun (some ⟨[[7]], false⟩) []).take 3).count
      SREvent.discontinuity := by
  exact (discontinuity_per_reopen (some ⟨[[7]], false⟩) []).2 3 0 [7] (by decide)

/-- Claim C4 states the spec's clear intent (section 4.2: a reopen failure
must not terminate the loop), but the code violates it in both failure
positions, so this evaluates the code at a failing input.  With a successful
first open of an empty connection, a failed first in-loop reopen, and one
further scripted open, the trace shows the reopen error being logged and the
next iteration then panicking on the nil handle (src/icycat.go lines 327 and
330), killing the process before the throttle and before the scripted second
reopen; and a script whose very first open fails reaches main's glog.Fatalf
(src/icycat.go lines 290-293 and 453-456) instead of retrying. -/
theorem open_failure_kills_process :
    sourceReaderRun (some ⟨[], false⟩) [none, some ⟨[], false⟩] =
      [SREvent.discontinuity, SREvent.openOK, SREvent.metadata,
        SREvent.closeSource, SREvent.throttleWait, SREvent.discontinuity,
        SREvent.openFail, SREvent.logError, SREvent.panicExit] ∧
      SREvent.fatalExit ∈ sourceReaderRun none [] := by
  exact ⟨rfl, by decide⟩

/-! ## Reconnect throttling (src/icycat.go lines 316-356), timed model

Time is a Nat.  Each loop iteration starts the floor timer of duration T at
its first instruction (line 321, before the copy), then copies and closes
taking arbitrary durations, then blocks at the select of lines 345-349 until
the timer has fully elapsed, and only then calls reopen, which itself takes
some duration before the next iteration starts. -/

/-- Durations of the blocking operations of one loop iteration: the copy of
line 327 together with the logging, the close of line 330, and the reopen of
line 351. -/
structure IterCost where
  copyDur : Nat
  closeDur : Nat
  openDur : Nat
deriving DecidableEq

/-- Timestamps at which the loop's reopen attempts start.  An iteration
starting at time t sets the timer deadline to t + T, reaches the select at
t + copyDur + closeDur, resumes at the maximum of the two, reopens there, and
starts the next iteration openDur later. -/
def reopenTimes (T : Nat) : Nat → List IterCost → List Nat
  | _, [] => []
  | t, c :: rest =>
    max (t + c.copyDur + c.closeDur) (t + T) ::
      reopenTimes T (max (t + c.copyDur + c.closeDur) (t + T) + c.openDur) rest

theorem reopenTimes_head_ge (T : Nat) (costs : List IterCost) :
    ∀ (t x : Nat), (reopenTimes T t costs).head? = some x → t + T ≤ x := by
  cases costs with
  | nil => intro t x h; simp [reopenTimes] at h
  | cons c rest =>
    intro t x h
    simp only [reopenTimes, List.head?_cons, Option.some.injEq] at h
    subst h
    exact le_max_right _ _

/-- Claim C5: for any configured floor duration T, any loop start time, and
any durations of the copy, close, and reopen operations — including all-zero
durations, i.e. open and read failing instantly — consecutive reopen attempts
of the SourceReader loop are separated by at least T. -/
theorem reopen_floor_separation (T t0 : Nat) (costs : List IterCost) :
    List.Chain' (fun a b => a + T ≤ b) (reopenTimes T t0 costs) := by
  induction costs generalizing t0 with
  | nil => simp [reopenTimes]
  | cons c rest ih =>
    rw [reopenTimes, List.chain'_cons']
    constructor
    · intro b hb
      rw [Option.mem_def] at hb
      have := reopenTimes_head_ge T rest _ b hb
      have hmax : t0 + T ≤ max (t0 + c.copyDur + c.closeDur) (t0 + T) :=
        le_max_right _ _
      omega
    · exact ih _

/-! ## Retry copy loop of main (src/icycat.go lines 458-494)

Each iteration consumes one copy outcome: a byte count and a result that is
either success, clean end-of-stream (io.EOF), or another error.  The script's
end models cancellation observed at the select at the top of the loop. -/

/-- Result of one files.Copy call in main's loop (src/icycat.go line 469). -/
inductive CopyResult where
  | ok
  | eof
  | copyErr
deriving DecidableEq

/-- One copy outcome: bytes transferred and how the copy ended. -/
structure CopyOutcome where
  n : Nat
  r : CopyResult
deriving DecidableEq

/-- Observable events of main's retry loop.  `logCopyError` is glog.Error(err)
at line 472; `logByteCount n` the glog.Errorf with byte count and elapsed time
at line 475; `logVerbose n` the glog.Infof of line 479 under verbosity;
`breakLoop` the break on io.EOF at line 483; `floorWait` the select on the
floor timer at lines 487-492; `ctxCancelled` the cancellation return;
`closeSink` the deferred out.Close of lines 435-439, which runs on every
return from main. -/
inductive MainEvent where
  | logCopyError
  | logByteCount (n : Nat)
  | logVerbose (n : Nat)
  | breakLoop
  | floorWait
  | ctxCancelled
  | closeSink
deriving DecidableEq

/-- Events emitted for one copy outcome by the classification at src/icycat.go
lines 471-480: a non-EOF error is logged, with byte count and elapsed time
only when bytes were copied; otherwise a verbose log when verbosity ≥ 2. -/
def mainIter (verbose : Bool) (o : CopyOutcome) : List MainEvent :=
  match o.r with
  | CopyResult.copyErr =>
    MainEvent.logCopyError :: (if 0 < o.n then [MainEvent.logByteCount o.n] else [])
  | _ => if verbose then [MainEvent.logVerbose o.n] else []

/-- Models the loop of src/icycat.go lines 458-493: each iteration classifies
its copy outcome, breaks on io.EOF, and otherwise waits out the floor timer
before the next iteration; an exhausted script is cancellation observed at the
top of the loop. -/
def mainLoop (verbose : Bool) : List CopyOutcome → List MainEvent
  | [] => [MainEvent.ctxCancelled]
  | o :: rest =>
    mainIter verbose o ++
      match o.r with
      | CopyResult.eof => [MainEvent.breakLoop]
      | _ => MainEvent.floorWait :: mainLoop verbose rest

/-- Models main's loop together with the deferred sink close (src/icycat.go
lines 435-439): whichever way the loop ends, main returns and the deferred
out.Close runs. -/
def mainRun (verbose : Bool) (outcomes : List CopyOutcome) : List MainEvent :=
  mainLoop verbose outcomes ++ [MainEvent.closeSink]

/-- Counterexample to claim C6 as stated: a copy error with zero bytes copied
is logged, but the byte-count-and-elapsed-time log line is skipped because it
is guarded by n > 0 (src/icycat.go line 474), so not every copy error is
logged together with byte count and elapsed time. -/
theorem copy_error_without_bytes_logs_no_count :
    MainEvent.logCopyError ∈ mainIter false ⟨0, CopyResult.copyErr⟩ ∧
      MainEvent.logByteCount 0 ∉ mainIter false ⟨0, CopyResult.copyErr⟩ := by
  decide

/-- Claim C6, amended: in main's retry loop a clean end-of-stream (io.EOF)
exits the loop — no further outcome is consumed — and the deferred close of
the sink runs as main returns successfully; io.EOF itself is never logged as
an error; every other copy error is logged, with byte count and elapsed time
additionally logged exactly when the byte count is positive, and the loop
continues with the next iteration after the floor wait. -/
theorem retry_copy_loop_classification (verbose : Bool) (n : Nat)
    (rest : List CopyOutcome) :
    mainRun verbose (⟨n, CopyResult.eof⟩ :: rest) =
        mainIter verbose ⟨n, CopyResult.eof⟩ ++
          [MainEvent.breakLoop, MainEvent.closeSink] ∧
      MainEvent.logCopyError ∉ mainIter verbose ⟨n, CopyResult.eof⟩ ∧
      mainRun verbose (⟨n, CopyResult.copyErr⟩ :: rest) =
        MainEvent.logCopyError ::
          (if 0 < n then [MainEvent.logByteCount n] else []) ++
            MainEvent.floorWait :: mainRun verbose rest := by
  refine ⟨?_, ?_, ?_⟩
  · simp [mainRun, mainLoop]
  · cases verbose <;> simp [mainIter]
  · simp [mainRun, mainLoop, mainIter]

/-! ## MuxedSink background tasks (openOutput, src/icycat.go lines 185-233) -/

/-- Severity with which an error is handled by a background task. -/
inductive Severity where
  | fatalToProcess
  | logOnly
deriving DecidableEq

/-- Handling of errors in the drain goroutine (src/icycat.go lines 189-215):
scan and write errors are reported with glog.Errorf and never end the
process. -/
def drainErrSeverity : Severity := Severity.logOnly

/-- Handling of errors from mux.Serve in the gated-serve goroutine
(src/icycat.go line 222): glog.Fatalf, fatal to the whole process. -/
def serveErrSeverity : Severity := Severity.fatalToProcess

/-- Handling of errors from mux.Close in the shutdown goroutine
(src/icycat.go line 229): glog.Errorf, never fatal. -/
def shutdownErrSeverity : Severity := Severity.logOnly

/-- Coordination state of the gated-serve task: whether the triggerWriter's
gate has resolved, and whether mux.Serve has started. -/
structure MuxState where
  resolved : Bool
  serving : Bool
deriving DecidableEq

/-- Initial coordination state right after openOutput wires the tasks. -/
def initMux : MuxState := { resolved := false, serving := false }

/-- Labels of the coordination steps: producer calls on the gated sink
(triggerWriter.Write / triggerWriter.Close), the start of mux.Serve after the
blocking receive on the trigger channel (src/icycat.go lines 219-224), an
error from the running serve loop, and errors in the drain and shutdown
goroutines. -/
inductive MuxLabel where
  | sinkWrite
  | sinkClose
  | serveStart
  | serveErr
  | drainErr
  | shutdownErr
deriving DecidableEq

/-- Interleaved steps of the producer and the three background goroutines.
serveStart is enabled only when the gate has resolved, modelling that the
gated-serve goroutine blocks on receiving from out.Trigger() until the channel
is closed by the first Write or Close; serveErr can only occur once serving
has started. -/
inductive MuxStep : MuxState → MuxLabel → MuxState → Prop where
  | sinkWrite (s : MuxState) : MuxStep s MuxLabel.sinkWrite { s with resolved := true }
  | sinkClose (s : MuxState) : MuxStep s MuxLabel.sinkClose { s with resolved := true }
  | serveStart (s : MuxState) (h : s.resolved = true) :
      MuxStep s MuxLabel.serveStart { s with serving := true }
  | serveErr (s : MuxState) (h : s.serving = true) : MuxStep s MuxLabel.serveErr s
  | drainErr (s : MuxState) : MuxStep s MuxLabel.drainErr s
  | shutdownErr (s : MuxState) : MuxStep s MuxLabel.shutdownErr s

/-- Multi-step runs of the coordination, accumulating the label trace. -/
inductive MuxTrace : MuxState → List MuxLabel → MuxState → Prop where
  | nil (s : MuxState) : MuxTrace s [] s
  | cons {s s2 s3 : MuxState} {l : MuxLabel} {ls : List MuxLabel} :
      MuxStep s l s2 → MuxTrace s2 ls s3 → MuxTrace s (l :: ls) s3

theorem muxTrace_serveStart_after_resolve {s s3 : MuxState} {tr : List MuxLabel}
    (htr : MuxTrace s tr s3) :
    s.resolved = false →
    ∀ pre suf, tr = pre ++ MuxLabel.serveStart :: suf →
      MuxLabel.sinkWrite ∈ pre ∨ MuxLabel.sinkClose ∈ pre := by
  induction htr with
  | nil s => intro _ pre suf heq; exact absurd heq (by simp)
  | cons hstep htr2 ih =>
    intro hres pre suf heq
    cases pre with
    | nil =>
      simp only [List.nil_append, List.cons.injEq] at heq
      obtain ⟨h1, _⟩ := heq
      subst h1
      cases hstep with
      | serveStart h => rw [hres] at h; exact absurd h (by simp)
    | cons p pre2 =>
      simp only [List.cons_append, List.cons.injEq] at heq
      obtain ⟨h1, h2⟩ := heq
      subst h1
      cases hstep with
      | sinkWrite => exact Or.inl (List.mem_cons_self _ _)
      | sinkClose => exact Or.inr (List.mem_cons_self _ _)
      | serveStart h => rw [hres] at h; exact absurd h (by simp)
      | serveErr h =>
        rcases ih hres pre2 suf h2 with hm | hm
        · exact Or.inl (List.mem_cons_of_mem _ hm)
        · exact Or.inr (List.mem_cons_of_mem _ hm)
      | drainErr =>
        rcases ih hres pre2 suf h2 with hm | hm
        · exact Or.inl (List.mem_cons_of_mem _ hm)
        · exact Or.inr (List.mem_cons_of_mem _ hm)
      | shutdownErr =>
        rcases ih hres pre2 suf h2 with hm | hm
        · exact Or.inl (List.mem_cons_of_mem _ hm)
        · exact Or.inr (List.mem_cons_of_mem _ hm)

theorem muxTrace_serveErr_after_start {s s3 : MuxState} {tr : List MuxLabel}
    (htr : MuxTrace s tr s3) :
    s.serving = false →
    ∀ pre suf, tr = pre ++ MuxLabel.serveErr :: suf → MuxLabel.serveStart ∈ pre := by
  induction htr with
  | nil s => intro _ pre suf heq; exact absurd heq (by simp)
  | cons hstep htr2 ih =>
    intro hserv pre suf heq
    cases pre with
    | nil =>
      simp only [List.nil_append, List.cons.injEq] at heq
      obtain ⟨h1, _⟩ := heq
      subst h1
      cases hstep with
      | serveErr h => rw [hserv] at h; exact absurd h (by simp)
    | cons p pre2 =>
      simp only [List.cons_append, List.cons.injEq] at heq
      obtain ⟨h1, h2⟩ := heq
      subst h1
      cases hstep with
      | sinkWrite => exact List.mem_cons_of_mem _ (ih hserv pre2 suf h2)
      | sinkClose => exact List.mem_cons_of_mem _ (ih hserv pre2 suf h2)
      | serveStart h => exact List.mem_cons_self _ _
      | serveErr h => rw [hserv] at h; exact absurd h (by simp)
      | drainErr => exact List.mem_cons_of_mem _ (ih hserv pre2 suf h2)
      | shutdownErr => exact List.mem_cons_of_mem _ (ih hserv pre2 suf h2)

/-- Claim C7: in every reachable interleaving, the serve loop does not start
before the trigger gate has resolved — a serveStart step is always preceded by
a Write or Close on the gated sink — and every serve error happens after the
serve loop has started; an error of the running serve loop is fatal to the
process while drain and shutdown errors are only logged. -/
theorem gated_serve_fatal_classification {tr : List MuxLabel} {s3 : MuxState}
    (htr : MuxTrace initMux tr s3) :
    (∀ pre suf, tr = pre ++ MuxLabel.serveStart :: suf →
        MuxLabel.sinkWrite ∈ pre ∨ MuxLabel.sinkClose ∈ pre) ∧
      (∀ pre suf, tr = pre ++ MuxLabel.serveErr :: suf → MuxLabel.serveStart ∈ pre) ∧
      serveErrSeverity = Severity.fatalToProcess ∧
      drainErrSeverity = Severity.logOnly ∧
      shutdownErrSeverity = Severity.logOnly :=
  ⟨muxTrace_serveStart_after_resolve htr rfl,
    muxTrace_serveErr_after_start htr rfl, rfl, rfl, rfl⟩

/-- Witness for claim C7 at a concrete interleaving: a write resolves the
gate, the serve loop starts, then fails; the write indeed precedes the
start. -/
theorem gated_serve_fatal_classification_witness :
    MuxLabel.sinkWrite ∈ [MuxLabel.sinkWrite] ∨
      MuxLabel.sinkClose ∈ [MuxLabel.sinkWrite] := by
  have htr : MuxTrace initMux
      [MuxLabel.sinkWrite, MuxLabel.serveStart, MuxLabel.serveErr]
      { resolved := true, serving := true } :=
    MuxTrace.cons (MuxStep.sinkWrite initMux)
      (MuxTrace.cons (MuxStep.serveStart { resolved := true, serving := false } rfl)
        (MuxTrace.cons (MuxStep.serveErr { resolved := true, serving := true } rfl)
          (MuxTrace.nil _)))
  exact (gated_serve_fatal_classification htr).1 [MuxLabel.sinkWrite]
    [MuxLabel.serveErr] rfl

/-! ## Service metadata (src/icycat.go lines 71-101, 236-262, 295-308) -/

/-- HTTP headers as an association list from canonical field keys to value
lists; http.Header.Get returns the first value of the field, or the empty
string when the field is absent or has no values. -/
def headerGet (h : List (String × List String)) (key : String) : String :=
  match h.find? (fun p => p.1 == key) with
  | some (_, v :: _) => v
  | _ => ""

/-- Models printIcyHeaders (src/icycat.go lines 71-101): it logs the ICY-
fields and returns header.Get("Icy-Name"); when the header accessor errors
(`none`) it returns "". -/
def printIcyHeaders (hdr : Option (List (String × List String))) : String :=
  match hdr with
  | none => ""
  | some h => headerGet h "Icy-Name"

/-- DVB service descriptor as built at src/icycat.go lines 301-305. -/
structure ServiceDescriptor where
  serviceType : Nat
  provider : String
  name : String
deriving DecidableEq

/-- Numeric stand-in for the library constant dvb.ServiceTypeRadio. -/
def serviceTypeRadio : Nat := 2

/-- Models the metadata derivation of ICECASTReader (src/icycat.go lines
295-308), run once after the first successful open: when the source handle
has header support, take the Icy-Name field via printIcyHeaders, fall back to
the handle's reported name when that is empty, and build the descriptor
(type radio, provider "icycat"); without header support nothing is derived. -/
def serviceMetadata (hasHeaderSupport : Bool)
    (hdr : Option (List (String × List String))) (fName : String) :
    Option ServiceDescriptor :=
  if hasHeaderSupport then
    some ⟨serviceTypeRadio, "icycat",
      if printIcyHeaders hdr = "" then fName else printIcyHeaders hdr⟩
  else none

/-- DVB service-description table as assembled by DVBService (src/icycat.go
lines 239-251). -/
structure SDTModel where
  serviceID : Nat
  originalNetworkID : Nat
  descriptors : List ServiceDescriptor
deriving DecidableEq

/-- Models DVBService (src/icycat.go lines 236-262): the table is set on the
multiplexer only when a multiplexer exists, i.e. for a muxed sink; for a
direct sink (mux = nil) nothing is configured. -/
def dvbServiceSDT (muxPresent : Bool) (desc : ServiceDescriptor) : Option SDTModel :=
  if muxPresent then
    some { serviceID := 1, originalNetworkID := 0xFF01, descriptors := [desc] }
  else none

/-- Counterexample to claim C8 as stated: with header support present but an
empty (absent) Icy-Name field, the claim says the metadata is absent and the
service table is not configured; the code instead falls back to the handle's
name f.Name() (src/icycat.go lines 297-299) and still configures the table. -/
theorem empty_icy_name_still_configures_sdt :
    printIcyHeaders (some []) = "" ∧
      serviceMetadata true (some []) "radio-7" =
        some ⟨serviceTypeRadio, "icycat", "radio-7"⟩ ∧
      dvbServiceSDT true ⟨serviceTypeRadio, "icycat", "radio-7"⟩ =
        some ⟨1, 0xFF01, [⟨serviceTypeRadio, "icycat", "radio-7"⟩]⟩ := by
  refine ⟨rfl, ?_, rfl⟩
  simp [serviceMetadata, printIcyHeaders, headerGet]

/-- Claim C8, amended: ServiceMetadata is derived exactly once, after the
first successful source open and never again in the reopen loop, and is fed
into the muxed sink's service table whenever the source has header support;
the name is the Icy-Name field when nonempty and otherwise falls back to the
source handle's reported name; the table stays unconfigured only when the
source lacks header support or there is no multiplexer. -/
theorem service_metadata_once_with_fallback
    (hdr : Option (List (String × List String))) (fName : String)
    (desc : ServiceDescriptor) (c : ConnSpec) (rest : List (Option ConnSpec)) :
    serviceMetadata false hdr fName = none ∧
      serviceMetadata true hdr fName =
        some ⟨serviceTypeRadio, "icycat",
          if printIcyHeaders hdr = "" then fName else printIcyHeaders hdr⟩ ∧
      dvbServiceSDT false desc = none ∧
      dvbServiceSDT true desc = some ⟨1, 0xFF01, [desc]⟩ ∧
      (sourceReaderRun (some c) rest).count SREvent.metadata = 1 ∧
      (sourceReaderRun none rest).count SREvent.metadata = 0 := by
  refine ⟨rfl, ?_, rfl, rfl, ?_, ?_⟩
  · simp [serviceMetadata]
  · have h := loopRun_count_metadata rest 0 (some c)
    have heq : sourceReaderRun (some c) rest =
        SREvent.discontinuity :: SREvent.openOK :: SREvent.metadata ::
          loopRun 0 (some c) rest := rfl
    rw [heq]
    simp [List.count_cons, h]
  · rfl

/-! ## Metrics flag forcing (main, src/icycat.go lines 386-388) -/

/-- Models the flag forcing at src/icycat.go lines 386-388, which runs before
every read of Flags.Metrics (lines 390 and 445): when the metrics-port flag
is nonzero or the metrics-address flag is nonempty, Flags.Metrics is set to
true; otherwise it keeps its parsed value. -/
def effectiveMetricsFlag (metrics : Bool) (metricsPort : Int)
    (metricsAddress : String) : Bool :=
  if metricsPort ≠ 0 ∨ metricsAddress ≠ "" then true else metrics

/-- Claim C9: a nonzero metrics-port flag or a nonempty metrics-address flag
enables metrics publishing even when the metrics boolean flag itself was not
set — the flag value that every later use reads is true. -/
theorem metrics_forced_on (metrics : Bool) (metricsPort : Int)
    (metricsAddress : String) (h : metricsPort ≠ 0 ∨ metricsAddress ≠ "") :
    effectiveMetricsFlag metrics metricsPort metricsAddress = true := by
  simp only [effectiveMetricsFlag]
  exact if_pos h

/-- Witness for claim C9 at a concrete input: metrics-port 9090 with the
boolean flag unset yields an enabled metrics flag. -/
theorem metrics_forced_on_witness :
    effectiveMetricsFlag false 9090 "" = true :=
  metrics_forced_on false 9090 "" (Or.inl (by decide))

end Icycat
